import Mathlib

/-!
Shallow embedding of the MacroGI glucose/insulin core
(modules/insulin_advisor.py, modules/bg_finetune.py,
modules/bg_explainer.py, app_backend/modules/bg_forecast.py)
together with theorems checking the natural-language specification.

Machine floats are modelled by exact rationals (ℚ) where the source does
plain arithmetic and by ℝ where the source uses transcendental functions
(exponential decay with non-integer exponents, sin/cos).  Python `round`
is half-to-even (banker's rounding); `pyRound` reproduces it exactly.
-/

/-- Python `round(q)` on an exact rational: round half to even. -/
def pyRound (q : ℚ) : ℤ :=
  if q - (⌊q⌋ : ℚ) < 1/2 then ⌊q⌋
  else if 1/2 < q - (⌊q⌋ : ℚ) then ⌊q⌋ + 1
  else if ⌊q⌋ % 2 = 0 then ⌊q⌋ else ⌊q⌋ + 1

/-- Python `round(q, n)`: round to `n` decimal places, half to even. -/
def pyRoundTo (q : ℚ) (n : ℕ) : ℚ :=
  (pyRound (q * 10 ^ n) : ℚ) / 10 ^ n

namespace InsulinAdvisor

/-- Result record of `advise_dose` (insulin_advisor.py, lines 111-120). -/
structure DoseAdvice where
  correction_dose : ℚ
  meal_dose : ℚ
  iob_adjustment : ℚ
  total_dose : ℚ
  current_bg : ℚ
  target_bg : ℚ
  isf_used : ℚ
  icr_used : ℚ
  deriving DecidableEq, Repr

/-- `advise_dose(current_bg, target_bg, planned_carbs, iob, isf, icr)`
(insulin_advisor.py, lines 93-120): correction floored at 0, meal dose,
total floored at 0 and rounded to the nearest 0.5 unit. -/
def advise_dose (current_bg target_bg planned_carbs iob isf icr : ℚ) : DoseAdvice :=
  let correction : ℚ := max 0 ((current_bg - target_bg) / isf)
  let meal_dose : ℚ := planned_carbs / icr
  let raw_total : ℚ := correction + meal_dose - iob
  let total : ℚ := max 0 raw_total
  let total_rounded : ℚ := (pyRound (total * 2) : ℚ) / 2
  { correction_dose := pyRoundTo correction 2
    meal_dose := pyRoundTo meal_dose 2
    iob_adjustment := pyRoundTo iob 2
    total_dose := total_rounded
    current_bg := current_bg
    target_bg := target_bg
    isf_used := isf
    icr_used := icr }

/-- Result record of `auto_isf_icr` (insulin_advisor.py, lines 40-55). -/
structure AdvisorProfile where
  isf : ℚ
  icr : ℚ
  tdd : Option ℚ
  source : String
  deriving DecidableEq, Repr

/-- `auto_isf_icr` (insulin_advisor.py, lines 40-55): 1800/500 rules from
TDD, rounded to one decimal then clamped; fixed defaults when TDD is
`None` or not positive (Python truthiness of `tdd and tdd > 0`). -/
def auto_isf_icr (tdd : Option ℚ) : AdvisorProfile :=
  match tdd with
  | some t =>
    if 0 < t then
      let isf0 := pyRoundTo (1800 / t) 1
      let icr0 := pyRoundTo (500 / t) 1
      { isf := max 10 (min isf0 200)
        icr := max 3 (min icr0 50)
        tdd := some (pyRoundTo t 1)
        source := "calculated" }
    else
      { isf := 50, icr := 10, tdd := none, source := "default" }
  | none => { isf := 50, icr := 10, tdd := none, source := "default" }

end InsulinAdvisor

/-- C1: `advise_dose` never recommends negative insulin: with a positive
ISF, a reading at or below target gives zero correction; an IOB at least
the correction-plus-meal total gives a zero total dose; and the total dose
is always `max 0 (correction + meal - iob)` rounded to the nearest 0.5
unit, hence never negative. -/
theorem advise_dose_never_negative
    (current_bg target_bg planned_carbs iob isf icr : ℚ) (hisf : 0 < isf) :
    (current_bg ≤ target_bg →
      (InsulinAdvisor.advise_dose current_bg target_bg planned_carbs iob
        isf icr).correction_dose = 0) ∧
    (iob ≥ max 0 ((current_bg - target_bg) / isf) + planned_carbs / icr →
      (InsulinAdvisor.advise_dose current_bg target_bg planned_carbs iob
        isf icr).total_dose = 0) ∧
    (InsulinAdvisor.advise_dose current_bg target_bg planned_carbs iob
        isf icr).total_dose =
      (pyRound (max 0 (max 0 ((current_bg - target_bg) / isf)
        + planned_carbs / icr - iob) * 2) : ℚ) / 2 ∧
    0 ≤ (InsulinAdvisor.advise_dose current_bg target_bg planned_carbs iob
        isf icr).total_dose := by
  refine ⟨?_, ?_, rfl, ?_⟩
  · intro hle
    have hnum : (current_bg - target_bg) / isf ≤ 0 :=
      div_nonpos_of_nonpos_of_nonneg (by linarith) hisf.le
    have hcorr : max 0 ((current_bg - target_bg) / isf) = 0 :=
      max_eq_left hnum
    show pyRoundTo (max 0 ((current_bg - target_bg) / isf)) 2 = 0
    rw [hcorr]
    norm_num [pyRoundTo, pyRound]
  · intro hge
    have hzero : max 0 (max 0 ((current_bg - target_bg) / isf)
        + planned_carbs / icr - iob) = 0 :=
      max_eq_left (by linarith)
    show (pyRound (max 0 (max 0 ((current_bg - target_bg) / isf)
        + planned_carbs / icr - iob) * 2) : ℚ) / 2 = 0
    rw [hzero]
    norm_num [pyRound]
  · show 0 ≤ (pyRound (max 0 (max 0 ((current_bg - target_bg) / isf)
        + planned_carbs / icr - iob) * 2) : ℚ) / 2
    have h0 : (0:ℚ) ≤ max 0 (max 0 ((current_bg - target_bg) / isf)
        + planned_carbs / icr - iob) * 2 := by positivity
    have : (0:ℤ) ≤ pyRound (max 0 (max 0 ((current_bg - target_bg) / isf)
        + planned_carbs / icr - iob) * 2) := by
      unfold pyRound
      have hfl : (0:ℤ) ≤ ⌊max 0 (max 0 ((current_bg - target_bg) / isf)
          + planned_carbs / icr - iob) * 2⌋ := Int.floor_nonneg.mpr h0
      split <;> [exact hfl; skip]
      split <;> [omega; skip]
      split <;> omega
    have hq : (0:ℚ) ≤ (pyRound (max 0 (max 0 ((current_bg - target_bg) / isf)
        + planned_carbs / icr - iob) * 2) : ℚ) := by exact_mod_cast this
    linarith

/-- Witness for C1 at a concrete input (bg 90 ≤ target 100, IOB 5 covering
the meal dose 30/10 = 3). -/
theorem advise_dose_never_negative_witness :
    (0:ℚ) < 50 ∧
    ((90:ℚ) ≤ 100 →
      (InsulinAdvisor.advise_dose 90 100 30 5 50 10).correction_dose = 0) ∧
    ((5:ℚ) ≥ max 0 (((90:ℚ) - 100) / 50) + 30 / 10 →
      (InsulinAdvisor.advise_dose 90 100 30 5 50 10).total_dose = 0) ∧
    (InsulinAdvisor.advise_dose 90 100 30 5 50 10).total_dose =
      (pyRound (max 0 (max 0 (((90:ℚ) - 100) / 50) + 30 / 10 - 5) * 2) : ℚ) / 2 ∧
    (0:ℚ) ≤ (InsulinAdvisor.advise_dose 90 100 30 5 50 10).total_dose := by
  refine ⟨by norm_num, ?_⟩
  exact advise_dose_never_negative 90 100 30 5 50 10 (by norm_num)

/-- C4: `auto_isf_icr` returns the fixed defaults (isf 50, icr 10, source
"default") when TDD is undefined or not positive; otherwise isf is
1800/TDD rounded to one decimal and clamped to [10, 200], icr is 500/TDD
rounded to one decimal and clamped to [3, 50], with source "calculated";
TDD = 36 gives isf 50.0 and icr 13.9. -/
theorem auto_isf_icr_spec :
    (InsulinAdvisor.auto_isf_icr none =
      { isf := 50, icr := 10, tdd := none, source := "default" }) ∧
    (∀ t : ℚ, t ≤ 0 → InsulinAdvisor.auto_isf_icr (some t) =
      { isf := 50, icr := 10, tdd := none, source := "default" }) ∧
    (∀ t : ℚ, 0 < t → InsulinAdvisor.auto_isf_icr (some t) =
      { isf := max 10 (min (pyRoundTo (1800 / t) 1) 200)
        icr := max 3 (min (pyRoundTo (500 / t) 1) 50)
        tdd := some (pyRoundTo t 1)
        source := "calculated" }) ∧
    (InsulinAdvisor.auto_isf_icr (some 36) =
      { isf := 50, icr := 139/10, tdd := some 36, source := "calculated" }) := by
  refine ⟨rfl, ?_, ?_, ?_⟩
  · intro t ht
    simp only [InsulinAdvisor.auto_isf_icr]
    rw [if_neg (not_lt.mpr ht)]
  · intro t ht
    simp only [InsulinAdvisor.auto_isf_icr]
    rw [if_pos ht]
  · simp only [InsulinAdvisor.auto_isf_icr]
    norm_num [pyRoundTo, pyRound]

/-- Witness for C4 at concrete inputs (TDD = -5 gives the defaults,
TDD = 40 gives the calculated profile). -/
theorem auto_isf_icr_spec_witness :
    (InsulinAdvisor.auto_isf_icr (some (-5)) =
      { isf := 50, icr := 10, tdd := none, source := "default" }) ∧
    (InsulinAdvisor.auto_isf_icr (some 40) =
      { isf := max 10 (min (pyRoundTo (1800 / 40) 1) 200)
        icr := max 3 (min (pyRoundTo (500 / 40) 1) 50)
        tdd := some (pyRoundTo 40 1)
        source := "calculated" }) :=
  ⟨auto_isf_icr_spec.2.1 (-5) (by norm_num),
   auto_isf_icr_spec.2.2.1 40 (by norm_num)⟩

/-- Python `round(x)` on a real value, half to even. -/
noncomputable def pyRoundR (x : ℝ) : ℤ :=
  if Int.fract x < 1/2 then ⌊x⌋
  else if 1/2 < Int.fract x then ⌊x⌋ + 1
  else if ⌊x⌋ % 2 = 0 then ⌊x⌋ else ⌊x⌋ + 1

/-- Python `round(x, n)` on a real value. -/
noncomputable def pyRoundToR (x : ℝ) (n : ℕ) : ℝ :=
  (pyRoundR (x * 10 ^ n) : ℝ) / 10 ^ n

namespace BgForecast

/-- One element of `recent_readings` passed to `forecast_glucose`
(bg_forecast.py): a record with glucose/insulin/carbs/IOB/COB values and
an optional timestamp (modelled in minutes). -/
structure Reading where
  glucose : ℝ
  insulin : ℝ
  carbs : ℝ
  iob : ℝ
  cob : ℝ
  timestamp : Option ℕ

/-- `input_len` from the model metadata (bg_forecast_meta.json). -/
def INPUT_LEN : ℕ := 12

/-- One feature row of the 12×8 matrix (bg_forecast.py, lines 110-141):
time-of-day encoding from the reading's timestamp when present (midday
placeholder otherwise) and backward-difference glucose rate of change
(zero for the first reading). -/
noncomputable def featureRow (prev : Option Reading) (r : Reading) : List ℝ :=
  let hour_frac : ℝ := match r.timestamp with
    | some m => ((m % 1440 : ℕ) : ℝ) / 60
    | none => 12
  let hour_sin := Real.sin (2 * Real.pi * hour_frac / 24)
  let hour_cos := Real.cos (2 * Real.pi * hour_frac / 24)
  let roc : ℝ := match prev with
    | some p => r.glucose - p.glucose
    | none => 0
  [r.glucose, r.insulin, r.carbs, r.iob, r.cob, hour_sin, hour_cos, roc]

/-- The full feature matrix: the loop of bg_forecast.py lines 109-141,
threading the previous reading for the rate-of-change column. -/
noncomputable def featureRows : Option Reading → List Reading → List (List ℝ)
  | _, [] => []
  | prev, r :: rest => featureRow prev r :: featureRows (some r) rest

/-- The forecast result dict (bg_forecast.py, lines 149-153): three
rounded predictions plus an optional explanation payload. -/
structure ForecastResult (E : Type) where
  pred_30min : ℝ
  pred_60min : ℝ
  pred_90min : ℝ
  explanations : Option E

/-- `forecast_glucose(recent_readings, user_id, explain)`
(bg_forecast.py, lines 69-167) with the resolved model, the fitted scaler
and the explainer abstracted as function parameters.  Raising
`RuntimeError`/`ValueError` is modelled by `Except.error`; the swallowed
explainer failure is the `Option` result of `explainFn`. -/
noncomputable def forecast_glucose {E : Type}
    (model : Option (List (List ℝ) → ℝ × ℝ × ℝ))
    (scaler : List (List ℝ) → List (List ℝ))
    (explainFn : List (List ℝ) → ℝ → ℝ → Option E)
    (recent_readings : List Reading) (explain : Bool) :
    Except String (ForecastResult E) :=
  match model with
  | none => .error "BG forecast model is not loaded."
  | some predict =>
    if recent_readings.length < INPUT_LEN then
      .error ("Need at least " ++ toString INPUT_LEN ++ " readings, got "
        ++ toString recent_readings.length ++ ".")
    else
      let readings := recent_readings.drop (recent_readings.length - INPUT_LEN)
      let X := featureRows none readings
      let X_scaled := scaler X
      let preds := predict X_scaled
      let p30 := pyRoundToR preds.1 1
      let p60 := pyRoundToR preds.2.1 1
      let p90 := pyRoundToR preds.2.2 1
      if explain then
        let current_bg := ((recent_readings.getLast?).map Reading.glucose).getD 0
        .ok ⟨p30, p60, p90, explainFn X_scaled current_bg p60⟩
      else
        .ok ⟨p30, p60, p90, none⟩

/-- The per-user model cache `_user_models` is a Python dict keyed by user
id; modelled as a lookup function.  `invalidate_user_model_cache`
(bg_forecast.py, lines 64-66) is `dict.pop(user_id, None)`. -/
def invalidate_user_model_cache {M : Type} (cache : String → Option M)
    (user_id : String) : String → Option M :=
  fun k => if k = user_id then none else cache k

/-- `_get_model_for_user` (bg_forecast.py, lines 41-61): `None` user gets
the base model; a cache hit is returned as is; otherwise the persisted
store (disk) is consulted, populating the cache; otherwise the base
model.  Returns the resolved model together with the updated cache. -/
def get_model_for_user {M : Type} (cache : String → Option M)
    (disk : String → Option M) (base : Option M) (user_id : Option String) :
    Option M × (String → Option M) :=
  match user_id with
  | none => (base, cache)
  | some u =>
    match cache u with
    | some m => (some m, cache)
    | none =>
      match disk u with
      | some m => (some m, fun k => if k = u then some m else cache k)
      | none => (base, cache)

end BgForecast

/-- Dropping fewer elements than the length preserves the last element. -/
theorem drop_getLast_eq {α : Type} (l : List α) (n : ℕ) (h : n < l.length) :
    (l.drop n).getLast? = l.getLast? := by
  induction l generalizing n with
  | nil => simp at h
  | cons a t ih =>
    cases n with
    | zero => rfl
    | succ m =>
      have hm : m < t.length := by simpa using h
      have ht : t ≠ [] := by
        intro he
        rw [he] at hm
        simp at hm
      rw [List.drop_succ_cons, ih m hm]
      cases t with
      | nil => exact absurd rfl ht
      | cons b u => rfl

/-- C5: `forecast_glucose` rejects fewer than 12 readings with the
insufficient-data error, and with 12 or more readings the result equals
the result on just the most recent 12 readings: earlier rows never affect
the output. -/
theorem forecast_uses_last_12 {E : Type}
    (predict : List (List ℝ) → ℝ × ℝ × ℝ)
    (scaler : List (List ℝ) → List (List ℝ))
    (explainFn : List (List ℝ) → ℝ → ℝ → Option E)
    (recent : List BgForecast.Reading) (explain : Bool) :
    (recent.length < 12 →
      BgForecast.forecast_glucose (some predict) scaler explainFn recent explain =
        .error ("Need at least 12 readings, got " ++ toString recent.length ++ ".")) ∧
    (12 ≤ recent.length →
      BgForecast.forecast_glucose (some predict) scaler explainFn recent explain =
        BgForecast.forecast_glucose (some predict) scaler explainFn
          (recent.drop (recent.length - 12)) explain) := by
  constructor
  · intro h
    have h1 : recent.length < BgForecast.INPUT_LEN := h
    simp only [BgForecast.forecast_glucose, BgForecast.INPUT_LEN, if_pos h]
    rfl
  · intro h
    have hlast : (recent.drop (recent.length - 12)).getLast? = recent.getLast? :=
      drop_getLast_eq _ _ (by omega)
    have h1 : ¬ recent.length < 12 := by omega
    have h2 : ¬ (recent.drop (recent.length - 12)).length < 12 := by
      simp only [List.length_drop]
      omega
    have h3 : (recent.drop (recent.length - 12)).length - 12 = 0 := by
      simp only [List.length_drop]
      omega
    simp only [BgForecast.forecast_glucose, BgForecast.INPUT_LEN, h1, h2, if_false,
      h3, List.drop_zero, hlast]

/-- A fixed reading used by concrete test inputs. -/
noncomputable def sampleReading : BgForecast.Reading :=
  { glucose := 100, insulin := 0, carbs := 0, iob := 0, cob := 0, timestamp := none }

/-- A trivial stand-in for the loaded model, for concrete test inputs. -/
noncomputable def samplePredict : List (List ℝ) → ℝ × ℝ × ℝ := fun _ => (0, 0, 0)

/-- A trivial stand-in for the explainer, for concrete test inputs. -/
def sampleExplain : List (List ℝ) → ℝ → ℝ → Option Unit := fun _ _ _ => none

/-- Witness for C5: an 11-reading list is rejected and a 13-reading list
gives the same forecast as its last 12 readings. -/
theorem forecast_uses_last_12_witness :
    (BgForecast.forecast_glucose (some samplePredict) id sampleExplain
        (List.replicate 11 sampleReading) false =
      .error ("Need at least 12 readings, got "
        ++ toString (List.replicate 11 sampleReading).length ++ ".")) ∧
    (BgForecast.forecast_glucose (some samplePredict) id sampleExplain
        (List.replicate 13 sampleReading) false =
      BgForecast.forecast_glucose (some samplePredict) id sampleExplain
        ((List.replicate 13 sampleReading).drop
          ((List.replicate 13 sampleReading).length - 12)) false) :=
  ⟨(forecast_uses_last_12 samplePredict id sampleExplain
      (List.replicate 11 sampleReading) false).1 (by simp),
   (forecast_uses_last_12 samplePredict id sampleExplain
      (List.replicate 13 sampleReading) false).2 (by simp)⟩


/-- C9: cache invalidation is per-patient and frame-preserving: for any
cache state, `invalidate_user_model_cache p` leaves every other patient's
entry unchanged and removes at most `p`'s entry; a subsequent
`_get_model_for_user p` resolves from the persisted store, falling back
to the base model. -/
theorem cache_invalidate_frame {M : Type} (cache : String → Option M)
    (disk : String → Option M) (base : Option M) (p q : String) (hne : q ≠ p) :
    (BgForecast.invalidate_user_model_cache cache p q = cache q) ∧
    (BgForecast.invalidate_user_model_cache cache p p = none) ∧
    ((BgForecast.get_model_for_user
        (BgForecast.invalidate_user_model_cache cache p) disk base (some p)).1 =
      (disk p).or base) := by
  refine ⟨?_, ?_, ?_⟩
  · simp [BgForecast.invalidate_user_model_cache, hne]
  · simp [BgForecast.invalidate_user_model_cache]
  · simp only [BgForecast.get_model_for_user, BgForecast.invalidate_user_model_cache,
      if_pos rfl]
    cases hd : disk p <;> simp [hd, Option.or]

/-- Witness for C9 at a concrete two-entry cache: invalidating patient
"a" leaves "b" untouched and the next lookup for "a" falls back. -/
theorem cache_invalidate_frame_witness :
    (BgForecast.invalidate_user_model_cache
        (fun k => if k = "a" then some 1 else if k = "b" then some 2 else none)
        "a" "b" =
      (fun k => if k = "a" then some (1:ℕ) else if k = "b" then some 2 else none) "b") ∧
    (BgForecast.invalidate_user_model_cache
        (fun k => if k = "a" then some (1:ℕ) else if k = "b" then some 2 else none)
        "a" "a" = none) ∧
    ((BgForecast.get_model_for_user
        (BgForecast.invalidate_user_model_cache
          (fun k => if k = "a" then some (1:ℕ) else if k = "b" then some 2 else none) "a")
        (fun _ => none) (some 7) (some "a")).1 =
      ((fun (_ : String) => (none : Option ℕ)) "a").or (some 7)) :=
  cache_invalidate_frame _ _ _ "a" "b" (by decide)

namespace BgExplainer

/-- The contribution dict handed to `_generate_summary`
(bg_explainer.py): feature display name with signed attribution value, in
dict insertion order. -/
def Contrib : Type := List (String × ℚ)

/-- `sorted(contrib.items(), key=lambda x: abs(x[1]), reverse=True)`
(bg_explainer.py, line 121): stable descending sort by absolute value. -/
def sorted_feats (contrib : List (String × ℚ)) : List (String × ℚ) :=
  contrib.mergeSort (fun a b => decide (|b.2| ≤ |a.2|))

/-- `total_abs = sum(abs(v) for _, v in sorted_feats)`
(bg_explainer.py, line 134). -/
def total_abs (contrib : List (String × ℚ)) : ℚ :=
  ((sorted_feats contrib).map (fun x => |x.2|)).sum

/-- One rendered driver string `"<name> (<sign><pct>%)"`
(bg_explainer.py, lines 140-144). -/
def renderDriver (ta : ℚ) (x : String × ℚ) : String :=
  x.1 ++ " (" ++ (if 0 < x.2 then "+" else "-")
    ++ toString (pyRound (|x.2| / ta * 100)) ++ "%)"

/-- The `top_drivers` loop (bg_explainer.py, lines 138-144): the top 3 by
absolute contribution, skipping those whose rounded integer percentage of
the total absolute contribution is below 5. -/
def top_drivers (contrib : List (String × ℚ)) : List String :=
  ((sorted_feats contrib).take 3).filterMap (fun x =>
    if pyRound (|x.2| / total_abs contrib * 100) < 5 then none
    else some (renderDriver (total_abs contrib) x))

/-- `_generate_summary(contrib, direction)` (bg_explainer.py, lines
115-150). -/
def generate_summary (contrib : List (String × ℚ)) (direction : Option String) :
    String :=
  if contrib.isEmpty then "Unable to generate explanation."
  else
    let dir := match direction with
      | some d => d
      | none =>
        let total := ((sorted_feats contrib).map (fun x => x.2)).sum
        if 1/100 < total then "rise"
        else if total < -(1/100) then "drop"
        else "stable reading"
    if total_abs contrib = 0 then
      "No significant drivers identified for this prediction."
    else if top_drivers contrib = [] then
      "Prediction is driven by a balanced mix of factors."
    else
      "Predicted " ++ dir ++ " mainly driven by: "
        ++ String.intercalate ", " (top_drivers contrib) ++ "."

/-- Direction selection in `explain_forecast` (bg_explainer.py, lines
100-108): from the actual predicted-minus-current difference. -/
def directionOfDiff (diff : ℚ) : String :=
  if 5 < diff then "rise"
  else if diff < -5 then "drop"
  else "stable reading"

/-- The summary produced by `explain_forecast` (bg_explainer.py, lines
99-110): the direction comes from the actual prediction difference when
both values are supplied, and is left to the attribution-sign fallback
otherwise. -/
def explain_summary (contrib : List (String × ℚ))
    (current_bg pred_60 : Option ℚ) : String :=
  match current_bg, pred_60 with
  | some cb, some p60 => generate_summary contrib (some (directionOfDiff (p60 - cb)))
  | _, _ => generate_summary contrib none

end BgExplainer

/-- A rounded percentage of at least 5 forces a raw percentage above 4.5
(with Python's half-to-even rounding, 4.5 itself rounds down to 4). -/
theorem pyRound_ge_five {x : ℚ} (h : 5 ≤ pyRound x) : 9/2 < x := by
  have hle := Int.floor_le x
  have hlt := Int.lt_floor_add_one x
  unfold pyRound at h
  split at h
  · have h5 : (5:ℚ) ≤ (⌊x⌋:ℚ) := by exact_mod_cast h
    linarith
  · rename_i h1
    split at h
    · rename_i h2
      have h4 : (4:ℤ) ≤ ⌊x⌋ := by omega
      have h4q : (4:ℚ) ≤ (⌊x⌋:ℚ) := by exact_mod_cast h4
      linarith
    · rename_i h2
      push_neg at h1 h2
      have hfr : x - (⌊x⌋:ℚ) = 1/2 := le_antisymm h2 h1
      split at h
      · have h5 : (5:ℚ) ≤ (⌊x⌋:ℚ) := by exact_mod_cast h
        linarith
      · rename_i h3
        have h5 : (5:ℤ) ≤ ⌊x⌋ := by omega
        have h5q : (5:ℚ) ≤ (⌊x⌋:ℚ) := by exact_mod_cast h5
        linarith

/-- The total absolute attribution is a sum of absolute values. -/
theorem total_abs_nonneg (contrib : List (String × ℚ)) :
    0 ≤ BgExplainer.total_abs contrib := by
  unfold BgExplainer.total_abs
  apply List.sum_nonneg
  intro q hq
  obtain ⟨x, _, rfl⟩ := List.mem_map.mp hq
  exact abs_nonneg _

/-- A concrete attribution dict: one dominant driver at 95.4% and one
small driver at 4.6% of the total absolute attribution. -/
def exampleContrib : List (String × ℚ) :=
  [("Glucose Level", 954/10), ("Carbs Intake", 46/10)]

/-- Evaluate `pyRound` when the fractional part is below one half. -/
theorem pyRound_eval_down {q : ℚ} {n : ℤ} (hfl : ⌊q⌋ = n) (h : q - n < 1/2) :
    pyRound q = n := by
  unfold pyRound
  rw [hfl]
  rw [if_pos h]

/-- Evaluate `pyRound` when the fractional part is above one half. -/
theorem pyRound_eval_up {q : ℚ} {n : ℤ} (hfl : ⌊q⌋ = n) (h : 1/2 < q - n) :
    pyRound q = n + 1 := by
  unfold pyRound
  rw [hfl]
  rw [if_neg (by linarith), if_pos h]

/-- The example dict is already sorted descending by absolute value. -/
theorem exampleContrib_sorted :
    BgExplainer.sorted_feats exampleContrib = exampleContrib := by
  apply List.mergeSort_of_sorted
  unfold exampleContrib
  refine List.Pairwise.cons ?_ (List.Pairwise.cons (by simp) List.Pairwise.nil)
  intro b hb
  simp only [List.mem_singleton] at hb
  subst hb
  simp only [decide_eq_true_eq]
  rw [abs_of_nonneg (by norm_num : (0:ℚ) ≤ 46/10),
    abs_of_nonneg (by norm_num : (0:ℚ) ≤ 954/10)]
  norm_num

/-- Total absolute attribution of the example dict. -/
theorem exampleContrib_total : BgExplainer.total_abs exampleContrib = 100 := by
  rw [BgExplainer.total_abs, exampleContrib_sorted]
  unfold exampleContrib
  simp only [List.map_cons, List.map_nil, List.sum_cons, List.sum_nil]
  rw [abs_of_nonneg (by norm_num : (0:ℚ) ≤ 954/10),
    abs_of_nonneg (by norm_num : (0:ℚ) ≤ 46/10)]
  norm_num

/-- The drivers rendered for the example dict: the 4.6% feature is kept
because its rounded percentage is 5. -/
theorem exampleContrib_top :
    BgExplainer.top_drivers exampleContrib =
      ["Glucose Level (+95%)", "Carbs Intake (+5%)"] := by
  have ha1 : |(954:ℚ)/10| / 100 * 100 = 954/10 := by
    rw [abs_of_nonneg (by norm_num : (0:ℚ) ≤ 954/10)]
    norm_num
  have ha2 : |(46:ℚ)/10| / 100 * 100 = 46/10 := by
    rw [abs_of_nonneg (by norm_num : (0:ℚ) ≤ 46/10)]
    norm_num
  have h1 : pyRound (|(954:ℚ)/10| / 100 * 100) = 95 := by
    rw [ha1]
    exact pyRound_eval_down (by rw [Int.floor_eq_iff] <;> norm_num) (by norm_num)
  have h2 : pyRound (|(46:ℚ)/10| / 100 * 100) = 5 := by
    rw [ha2]
    have : (5:ℤ) = 4 + 1 := by norm_num
    rw [this]
    exact pyRound_eval_up (by rw [Int.floor_eq_iff] <;> norm_num) (by norm_num)
  rw [BgExplainer.top_drivers, exampleContrib_sorted, exampleContrib_total]
  rw [(rfl : List.take 3 exampleContrib = exampleContrib)]
  simp only [exampleContrib, List.filterMap_cons, List.filterMap_nil, h1, h2]
  have h1n : pyRound |(477:ℚ)/5| = 95 := by
    rw [abs_of_nonneg (by norm_num : (0:ℚ) ≤ 477/5)]
    exact pyRound_eval_down (by rw [Int.floor_eq_iff] <;> norm_num) (by norm_num)
  have h2n : pyRound |(23:ℚ)/5| = 5 := by
    rw [abs_of_nonneg (by norm_num : (0:ℚ) ≤ 23/5)]
    have h45 : (5:ℤ) = 4 + 1 := by norm_num
    rw [h45]
    exact pyRound_eval_up (by rw [Int.floor_eq_iff] <;> norm_num) (by norm_num)
  norm_num [List.filterMap_cons, List.filterMap_nil, BgExplainer.renderDriver, h1n, h2n]
  exact ⟨rfl, rfl⟩

/-- C7 counterexample: in the summary for `exampleContrib`, the feature
"Carbs Intake" is kept as a driver although its share of the total
absolute attribution is 4.6% — strictly below the claimed 5% threshold
(its integer-rounded percentage is 5, which is what the code tests). -/
theorem explainer_threshold_counterexample :
    ("Carbs Intake (+5%)" ∈ BgExplainer.top_drivers exampleContrib) ∧
    ("Carbs Intake", (46:ℚ)/10) ∈ exampleContrib ∧
    |(46:ℚ)/10| / BgExplainer.total_abs exampleContrib * 100 < 5 := by
  refine ⟨?_, ?_, ?_⟩
  · rw [exampleContrib_top]
    simp
  · simp [exampleContrib]
  · rw [exampleContrib_total]
    rw [abs_of_nonneg (by norm_num : (0:ℚ) ≤ 46/10)]
    norm_num

/-- C7 (amended): the summary direction is determined solely by the
predicted-minus-current difference (rise above +5, drop below -5, else
stable); the summary keeps at most 3 features, each with an
integer-rounded percentage of at least 5 (equivalently, contributing
strictly more than 4.5% of the total absolute attribution); an all-zero
attribution gives the "No significant drivers" message and an empty
driver list with nonzero attribution gives the "balanced mix" message. -/
theorem explainer_summary_spec (contrib : List (String × ℚ)) (cb p60 : ℚ) :
    ((5 < p60 - cb → BgExplainer.directionOfDiff (p60 - cb) = "rise") ∧
     (p60 - cb < -5 → BgExplainer.directionOfDiff (p60 - cb) = "drop") ∧
     (-5 ≤ p60 - cb → p60 - cb ≤ 5 →
       BgExplainer.directionOfDiff (p60 - cb) = "stable reading")) ∧
    (contrib ≠ [] → BgExplainer.total_abs contrib ≠ 0 →
      BgExplainer.top_drivers contrib ≠ [] →
      BgExplainer.explain_summary contrib (some cb) (some p60) =
        "Predicted " ++ BgExplainer.directionOfDiff (p60 - cb)
          ++ " mainly driven by: "
          ++ String.intercalate ", " (BgExplainer.top_drivers contrib) ++ ".") ∧
    ((BgExplainer.top_drivers contrib).length ≤ 3) ∧
    (∀ d ∈ BgExplainer.top_drivers contrib, ∃ x ∈ contrib,
      d = BgExplainer.renderDriver (BgExplainer.total_abs contrib) x ∧
      9 * BgExplainer.total_abs contrib < 200 * |x.2|) ∧
    (contrib ≠ [] → BgExplainer.total_abs contrib = 0 →
      BgExplainer.explain_summary contrib (some cb) (some p60) =
        "No significant drivers identified for this prediction.") ∧
    (contrib ≠ [] → BgExplainer.total_abs contrib ≠ 0 →
      BgExplainer.top_drivers contrib = [] →
      BgExplainer.explain_summary contrib (some cb) (some p60) =
        "Prediction is driven by a balanced mix of factors.") := by
  refine ⟨⟨?_, ?_, ?_⟩, ?_, ?_, ?_, ?_, ?_⟩
  · intro h
    rw [BgExplainer.directionOfDiff, if_pos h]
  · intro h
    rw [BgExplainer.directionOfDiff, if_neg (by linarith), if_pos h]
  · intro h1 h2
    rw [BgExplainer.directionOfDiff, if_neg (by linarith), if_neg (by linarith)]
  · intro h1 h2 h3
    cases contrib with
    | nil => exact absurd rfl h1
    | cons a l =>
      simp only [BgExplainer.explain_summary, BgExplainer.generate_summary,
        List.isEmpty_cons, Bool.false_eq_true, if_false, h2, h3, ite_false]
  · exact le_trans (List.length_filterMap_le _ _) (List.length_take_le _ _)
  · intro d hd
    rw [BgExplainer.top_drivers] at hd
    obtain ⟨x, hx, hfx⟩ := List.mem_filterMap.mp hd
    have hxs : x ∈ BgExplainer.sorted_feats contrib := List.mem_of_mem_take hx
    rw [BgExplainer.sorted_feats] at hxs
    have hxc : x ∈ contrib := (List.mergeSort_perm contrib _).mem_iff.mp hxs
    by_cases hc : pyRound (|x.2| / BgExplainer.total_abs contrib * 100) < 5
    · rw [if_pos hc] at hfx
      exact absurd hfx (by simp)
    · rw [if_neg hc] at hfx
      have hdx : BgExplainer.renderDriver (BgExplainer.total_abs contrib) x = d :=
        Option.some_injective _ hfx
      push_neg at hc
      have h45 : 9/2 < |x.2| / BgExplainer.total_abs contrib * 100 :=
        pyRound_ge_five hc
      have hta0 : 0 ≤ BgExplainer.total_abs contrib := total_abs_nonneg contrib
      rcases eq_or_lt_of_le hta0 with he | hpos
      · exfalso
        rw [← he, div_zero, zero_mul] at h45
        norm_num at h45
      · refine ⟨x, hxc, hdx.symm, ?_⟩
        rw [div_mul_eq_mul_div, lt_div_iff hpos] at h45
        linarith
  · intro h1 h2
    cases contrib with
    | nil => exact absurd rfl h1
    | cons a l =>
      simp only [BgExplainer.explain_summary, BgExplainer.generate_summary,
        List.isEmpty_cons, Bool.false_eq_true, if_false, h2, ite_true]
  · intro h1 h2 h3
    cases contrib with
    | nil => exact absurd rfl h1
    | cons a l =>
      simp only [BgExplainer.explain_summary, BgExplainer.generate_summary,
        List.isEmpty_cons, Bool.false_eq_true, if_false, h2, h3, ite_false, ite_true]

/-- Witness for C7's amended theorem on `exampleContrib` with current
glucose 100 and 60-minute prediction 120. -/
theorem explainer_summary_spec_witness :
    (BgExplainer.explain_summary exampleContrib (some 100) (some 120) =
      "Predicted " ++ BgExplainer.directionOfDiff ((120:ℚ) - 100)
        ++ " mainly driven by: "
        ++ String.intercalate ", " (BgExplainer.top_drivers exampleContrib) ++ ".") ∧
    ((BgExplainer.top_drivers exampleContrib).length ≤ 3) :=
  ⟨(explainer_summary_spec exampleContrib 100 120).2.1
      (by simp [exampleContrib])
      (by rw [exampleContrib_total]; norm_num)
      (by rw [exampleContrib_top]; simp),
   (explainer_summary_spec exampleContrib 100 120).2.2.1⟩

/-- `pyRoundR` moves a value by at most one half. -/
theorem pyRoundR_close (y : ℝ) : |(pyRoundR y : ℝ) - y| ≤ 1/2 := by
  have h0 : 0 ≤ y - (⌊y⌋:ℝ) := by
    have := Int.floor_le y
    linarith
  have h1 : y - (⌊y⌋:ℝ) < 1 := by
    have := Int.lt_floor_add_one y
    linarith
  unfold pyRoundR
  have hfr : Int.fract y = y - (⌊y⌋:ℝ) := rfl
  split
  · rename_i h
    rw [hfr] at h
    rw [abs_le]
    constructor <;> linarith
  · rename_i h
    push_neg at h
    rw [hfr] at h
    split
    · rename_i h2
      rw [hfr] at h2
      push_cast
      rw [abs_le]
      constructor <;> linarith
    · rename_i h2
      push_neg at h2
      rw [hfr] at h2
      split
      · rw [abs_le]
        constructor <;> linarith
      · push_cast
        rw [abs_le]
        constructor <;> linarith

/-- Rounding to two decimals moves a value by at most 1/200. -/
theorem pyRoundToR_close (x : ℝ) : |pyRoundToR x 2 - x| ≤ 1/200 := by
  unfold pyRoundToR
  have h : ((pyRoundR (x * 10 ^ 2) : ℝ) / 10 ^ 2 - x)
      = ((pyRoundR (x * 10 ^ 2) : ℝ) - x * 10 ^ 2) / 10 ^ 2 := by
    ring
  rw [h, abs_div]
  have h2 : |(10:ℝ) ^ 2| = 100 := by norm_num
  rw [h2]
  have := pyRoundR_close (x * 10 ^ 2)
  rw [div_le_iff (by norm_num : (0:ℝ) < 100)]
  calc |(pyRoundR (x * 10 ^ 2) : ℝ) - x * 10 ^ 2| ≤ 1/2 := this
    _ = 1/200 * 100 := by norm_num

/-- Sum comparison for mapped lists: pointwise no larger and strictly
smaller somewhere gives a strictly smaller sum. -/
theorem list_map_sum_lt {α : Type} (l : List α) (f g : α → ℝ)
    (hle : ∀ a ∈ l, f a ≤ g a) (hlt : ∃ a ∈ l, f a < g a) :
    (l.map f).sum < (l.map g).sum := by
  induction l with
  | nil => simp at hlt
  | cons a t ih =>
    simp only [List.map_cons, List.sum_cons]
    obtain ⟨b, hb, hblt⟩ := hlt
    rcases List.mem_cons.mp hb with hba | hbt
    · subst hba
      have ht : (t.map f).sum ≤ (t.map g).sum :=
        List.sum_le_sum (fun x hx => hle x (List.mem_cons_of_mem _ hx))
      linarith
    · have hlt2 := ih (fun x hx => hle x (List.mem_cons_of_mem _ hx)) ⟨b, hbt, hblt⟩
      have ha : f a ≤ g a := hle a (List.mem_cons_self _ _)
      linarith

namespace InsulinAdvisor

/-- One `meal_data` row used by `compute_iob`: creation time (modelled in
minutes) and insulin units. -/
structure InsulinEvent where
  created_at : ℚ
  insulin : ℚ

/-- The decayed remainder of one dose at time `now` (insulin_advisor.py,
lines 77-88): `insulin * 0.5 ** (elapsed_min / 75)` with continuous
elapsed minutes; non-positive doses are skipped. -/
noncomputable def doseRemaining (now : ℚ) (e : InsulinEvent) : ℝ :=
  if e.insulin ≤ 0 then 0
  else (e.insulin : ℝ) * (1/2 : ℝ) ^ (((now - e.created_at : ℚ) : ℝ) / 75)

/-- `compute_iob` before its final 2-decimal rounding
(insulin_advisor.py, lines 57-90): the events are restricted to the
trailing 5 hours (the `created_at > now - 5h` query filter) and their
decayed remainders summed. -/
noncomputable def compute_iob_raw (events : List InsulinEvent) (now : ℚ) : ℝ :=
  ((events.filter (fun e => now - 300 < e.created_at)).map (doseRemaining now)).sum

/-- `compute_iob`: the raw sum rounded to 2 decimals (`round(iob, 2)`,
insulin_advisor.py line 90). -/
noncomputable def compute_iob (events : List InsulinEvent) (now : ℚ) : ℝ :=
  pyRoundToR (compute_iob_raw events now) 2

end InsulinAdvisor

/-- C8: a single dose of U > 0 units logged exactly 75 minutes ago and no
other doses gives IOB = U/2 exactly before rounding (and within 1/200
after the 2-decimal rounding); for a fixed set of doses, all inside the
lookback window at the later instant and at least one positive, the raw
IOB strictly decreases as time advances. -/
theorem compute_iob_spec :
    (∀ (t0 U : ℚ), 0 < U →
      InsulinAdvisor.compute_iob_raw [⟨t0, U⟩] (t0 + 75) = (U:ℝ)/2 ∧
      |InsulinAdvisor.compute_iob [⟨t0, U⟩] (t0 + 75) - (U:ℝ)/2| ≤ 1/200) ∧
    (∀ (events : List InsulinAdvisor.InsulinEvent) (now1 now2 : ℚ),
      now1 < now2 →
      (∀ e ∈ events, now2 - 300 < e.created_at) →
      (∃ e ∈ events, 0 < e.insulin) →
      InsulinAdvisor.compute_iob_raw events now2 <
        InsulinAdvisor.compute_iob_raw events now1) := by
  constructor
  · intro t0 U hU
    have hraw : InsulinAdvisor.compute_iob_raw [⟨t0, U⟩] (t0 + 75) = (U:ℝ)/2 := by
      rw [InsulinAdvisor.compute_iob_raw]
      have hfilt : List.filter
          (fun e : InsulinAdvisor.InsulinEvent =>
            decide (t0 + 75 - 300 < e.created_at)) [⟨t0, U⟩] = [⟨t0, U⟩] := by
        rw [List.filter_cons]
        rw [if_pos (decide_eq_true (by linarith : t0 + 75 - 300 < (t0:ℚ)))]
        rfl
      rw [hfilt]
      simp only [List.map_cons, List.map_nil, List.sum_cons, List.sum_nil, add_zero]
      rw [InsulinAdvisor.doseRemaining]
      rw [if_neg (not_le.mpr hU)]
      have hexp : (((t0 + 75 - t0 : ℚ)) : ℝ) / 75 = 1 := by
        push_cast
        ring_nf
      rw [hexp, Real.rpow_one]
      ring
    refine ⟨hraw, ?_⟩
    rw [InsulinAdvisor.compute_iob, hraw]
    exact pyRoundToR_close _
  · intro events now1 now2 h12 hwin ⟨w, hw, hwpos⟩
    have h12R : ((now1:ℝ)) < ((now2:ℝ)) := by exact_mod_cast h12
    have hf2 : events.filter (fun e => decide (now2 - 300 < e.created_at)) = events :=
      List.filter_eq_self.mpr (fun a ha => decide_eq_true (hwin a ha))
    have hf1 : events.filter (fun e => decide (now1 - 300 < e.created_at)) = events :=
      List.filter_eq_self.mpr (fun a ha => decide_eq_true (by
        have := hwin a ha
        linarith))
    rw [InsulinAdvisor.compute_iob_raw, InsulinAdvisor.compute_iob_raw, hf1, hf2]
    apply list_map_sum_lt
    · intro a ha
      rw [InsulinAdvisor.doseRemaining, InsulinAdvisor.doseRemaining]
      by_cases hn : a.insulin ≤ 0
      · rw [if_pos hn, if_pos hn]
      · rw [if_neg hn, if_neg hn]
        push_neg at hn
        have hbase : ((1:ℝ)/2) ^ (((now2 - a.created_at : ℚ) : ℝ) / 75) ≤
            ((1:ℝ)/2) ^ (((now1 - a.created_at : ℚ) : ℝ) / 75) := by
          apply Real.rpow_le_rpow_of_exponent_ge (by norm_num) (by norm_num)
          push_cast
          linarith [h12R]
        have hpos : (0:ℝ) < (a.insulin : ℝ) := by exact_mod_cast hn
        exact mul_le_mul_of_nonneg_left hbase hpos.le
    · refine ⟨w, hw, ?_⟩
      rw [InsulinAdvisor.doseRemaining, InsulinAdvisor.doseRemaining]
      rw [if_neg (not_le.mpr hwpos), if_neg (not_le.mpr hwpos)]
      have hbase : ((1:ℝ)/2) ^ (((now2 - w.created_at : ℚ) : ℝ) / 75) <
          ((1:ℝ)/2) ^ (((now1 - w.created_at : ℚ) : ℝ) / 75) := by
        apply Real.rpow_lt_rpow_of_exponent_gt (by norm_num) (by norm_num)
        push_cast
        linarith [h12R]
      have hpos : (0:ℝ) < (w.insulin : ℝ) := by exact_mod_cast hwpos
      exact mul_lt_mul_of_pos_left hbase hpos

/-- Witness for C8: one 4-unit dose at time 0; at 75 minutes the raw IOB
is exactly 2, and from 75 to 150 minutes the raw IOB strictly drops. -/
theorem compute_iob_spec_witness :
    (InsulinAdvisor.compute_iob_raw [⟨0, 4⟩] (0 + 75) = (4:ℝ)/2 ∧
     |InsulinAdvisor.compute_iob [⟨0, 4⟩] (0 + 75) - (4:ℝ)/2| ≤ 1/200) ∧
    InsulinAdvisor.compute_iob_raw [⟨0, 4⟩] 150 <
      InsulinAdvisor.compute_iob_raw [⟨0, 4⟩] 75 :=
  ⟨compute_iob_spec.1 0 4 (by norm_num),
   compute_iob_spec.2 [⟨0, 4⟩] 75 150 (by norm_num)
     (by
       intro e he
       simp only [List.mem_singleton] at he
       subst he
       norm_num)
     ⟨⟨0, 4⟩, by simp, by norm_num⟩⟩

namespace BgFinetune

/-- One `cgm_data` row handed to `_build_time_series`: timestamp
(modelled in minutes) and glucose value. -/
structure CgmRow where
  timestamp : ℕ
  bg_value : ℝ

/-- One `meal_data` row: creation time (minutes), carbs and insulin. -/
structure MealRow where
  created_at : ℕ
  carbs : ℝ
  insulin : ℝ

/-- Rounding a timestamp down to its 5-minute slot
(`replace(second=0, microsecond=0)` then `minute=(minute // 5) * 5`). -/
def bucket (t : ℕ) : ℕ := 5 * (t / 5)

/-- Accumulated carbs of all meal events whose bucket is `b` (the
`meal_map` defaultdict accumulation, bg_finetune.py lines 50-57). -/
def mealCarbsAt (meals : List MealRow) (b : ℕ) : ℝ :=
  meals.foldl (fun acc m => if bucket m.created_at = b then acc + m.carbs else acc) 0

/-- Accumulated insulin of all meal events whose bucket is `b`. -/
def mealInsulinAt (meals : List MealRow) (b : ℕ) : ℝ :=
  meals.foldl (fun acc m => if bucket m.created_at = b then acc + m.insulin else acc) 0

/-- `IOB_DECAY = 0.5 ** (5 / 75)` (bg_finetune.py line 60). -/
noncomputable def IOB_DECAY : ℝ := (1/2 : ℝ) ^ ((5:ℝ)/75)

/-- `COB_DECAY = 0.5 ** (5 / 45)` (bg_finetune.py line 61). -/
noncomputable def COB_DECAY : ℝ := (1/2 : ℝ) ^ ((5:ℝ)/45)

/-- `sorted(cgm_rows, key=lambda r: r["timestamp"])` — a stable sort. -/
def sortCgm (rows : List CgmRow) : List CgmRow :=
  rows.mergeSort (fun a b => decide (a.timestamp ≤ b.timestamp))

/-- The `cgm_map` dict built by iterating the sorted readings
(bg_finetune.py lines 72-76): bucketed timestamp to glucose value, later
insertions overwriting earlier ones. -/
def cgmMap (rows : List CgmRow) : ℕ → Option ℝ :=
  rows.foldl
    (fun m r => fun k => if k = bucket r.timestamp then some r.bg_value else m k)
    (fun _ => none)

/-- One emitted grid row: the 8 feature values of FEATURE_COLS
(bg_finetune.py line 100), instrumented with the slot timestamp `t` so
that theorems can name the bucket a row belongs to (the source emits the
8 numbers only). -/
structure GridRow where
  t : ℕ
  glucose : ℝ
  insulin_now : ℝ
  carbs_now : ℝ
  iob : ℝ
  cob : ℝ
  hour_sin : ℝ
  hour_cos : ℝ
  glucose_roc : ℝ

/-- A grid row of zeroes, used as the out-of-range default for lookups. -/
noncomputable def dummyRow : GridRow :=
  { t := 0, glucose := 0, insulin_now := 0, carbs_now := 0, iob := 0, cob := 0,
    hour_sin := 0, hour_cos := 0, glucose_roc := 0 }

/-- The mutable state of the grid walk (bg_finetune.py lines 79-81):
running IOB/COB, previous glucose, and the emitted rows. -/
structure WalkState where
  iob : ℝ
  cob : ℝ
  prev_glucose : Option ℝ
  rows : List GridRow

/-- The `hour_frac = t.hour + t.minute / 60.0` time-of-day encoding for a
timestamp in minutes. -/
noncomputable def hourFrac (t : ℕ) : ℝ :=
  ((t % 1440) / 60 : ℕ) + ((t % 60 : ℕ) : ℝ) / 60

/-- The row emitted for a slot `t` carrying a CGM reading `glucose`
(bg_finetune.py lines 90-101): bucketed meal sums, the decay recurrence
applied once to the incoming state, the time-of-day encoding, and the
backward-difference rate of change. -/
noncomputable def emitRow (meals : List MealRow) (s : WalkState) (t : ℕ)
    (glucose : ℝ) : GridRow :=
  { t := t
    glucose := glucose
    insulin_now := mealInsulinAt meals t
    carbs_now := mealCarbsAt meals t
    iob := s.iob * IOB_DECAY + mealInsulinAt meals t
    cob := s.cob * COB_DECAY + mealCarbsAt meals t
    hour_sin := Real.sin (2 * Real.pi * hourFrac t / 24)
    hour_cos := Real.cos (2 * Real.pi * hourFrac t / 24)
    glucose_roc := match s.prev_glucose with
      | some p => glucose - p
      | none => 0 }

/-- One iteration of the grid walk (bg_finetune.py lines 83-103): a slot
with no CGM reading is skipped outright (`continue` before the decay
update); a slot with a reading consumes its bucketed meals, advances the
decay state once and emits a row. -/
noncomputable def walkStep (meals : List MealRow) (cmap : ℕ → Option ℝ)
    (s : WalkState) (t : ℕ) : WalkState :=
  match cmap t with
  | none => s
  | some glucose =>
    let row := emitRow meals s t glucose
    { iob := row.iob, cob := row.cob, prev_glucose := some glucose,
      rows := s.rows ++ [row] }

/-- The synthetic clock `t = t_start; while t <= t_end: ...; t += 5min`
as the list of visited slots (requires `t_start ≤ t_end`, which holds
whenever the walk runs: `t_start` is the first sorted reading's bucket
and `t_end` the last sorted reading's raw timestamp). -/
def gridTimes (t_start t_end : ℕ) : List ℕ :=
  (List.range ((t_end - t_start) / 5 + 1)).map (fun i => t_start + 5 * i)

/-- `_build_time_series(cgm_rows, meal_rows)` (bg_finetune.py lines
40-105): empty input gives an empty grid; otherwise sort the readings,
index them by bucket, and fold the walk over the 5-minute clock. -/
noncomputable def build_time_series (cgm_rows : List CgmRow)
    (meal_rows : List MealRow) : List GridRow :=
  match sortCgm cgm_rows with
  | [] => []
  | first :: rest =>
    let t_start := bucket first.timestamp
    let t_end := ((first :: rest).getLast (List.cons_ne_nil first rest)).timestamp
    let cmap := cgmMap (first :: rest)
    ((gridTimes t_start t_end).foldl (walkStep meal_rows cmap)
      { iob := 0, cob := 0, prev_glucose := none, rows := [] }).rows

/-- The glucose value of the last sorted reading falling in bucket `b` —
what the `cgm_map` dict retains after its overwriting inserts. -/
def lastBgInBucket (cgm : List CgmRow) (b : ℕ) : Option ℝ :=
  (((sortCgm cgm).filter (fun r => decide (bucket r.timestamp = b))).map
    (fun r => r.bg_value)).getLast?

end BgFinetune

namespace BgFinetune

/-- Filtering the meal list by a predicate that keeps every event of
bucket `b` does not change the accumulated value at `b`. -/
theorem mealFold_filter (g : MealRow → ℝ) (p : MealRow → Bool) (b : ℕ) :
    ∀ (meals : List MealRow) (a : ℝ),
      (∀ m ∈ meals, bucket m.created_at = b → p m = true) →
      (meals.filter p).foldl
          (fun acc m => if bucket m.created_at = b then acc + g m else acc) a
        = meals.foldl
          (fun acc m => if bucket m.created_at = b then acc + g m else acc) a := by
  intro meals
  induction meals with
  | nil => intro a h; rfl
  | cons m ms ih =>
    intro a h
    by_cases hp : p m = true
    · rw [List.filter_cons_of_pos hp]
      simp only [List.foldl_cons]
      exact ih _ (fun x hx => h x (List.mem_cons_of_mem _ hx))
    · rw [List.filter_cons_of_neg (by simpa using hp)]
      have hb : ¬ bucket m.created_at = b := fun hbb =>
        hp (h m (List.mem_cons_self _ _) hbb)
      simp only [List.foldl_cons, if_neg hb]
      exact ih _ (fun x hx => h x (List.mem_cons_of_mem _ hx))

/-- `mealCarbsAt` is stable under keeping all events of the bucket. -/
theorem mealCarbsAt_filter (meals : List MealRow) (p : MealRow → Bool) (b : ℕ)
    (h : ∀ m ∈ meals, bucket m.created_at = b → p m = true) :
    mealCarbsAt (meals.filter p) b = mealCarbsAt meals b :=
  mealFold_filter (fun m => m.carbs) p b meals 0 h

/-- `mealInsulinAt` is stable under keeping all events of the bucket. -/
theorem mealInsulinAt_filter (meals : List MealRow) (p : MealRow → Bool) (b : ℕ)
    (h : ∀ m ∈ meals, bucket m.created_at = b → p m = true) :
    mealInsulinAt (meals.filter p) b = mealInsulinAt meals b :=
  mealFold_filter (fun m => m.insulin) p b meals 0 h

/-- Two meal lists with the same per-bucket sums at every slot with a CGM
reading drive the walk identically. -/
theorem walk_congr (cmap : ℕ → Option ℝ) (m1 m2 : List MealRow) :
    ∀ (ts : List ℕ) (s : WalkState),
      (∀ t ∈ ts, (cmap t).isSome →
        mealCarbsAt m1 t = mealCarbsAt m2 t ∧ mealInsulinAt m1 t = mealInsulinAt m2 t) →
      ts.foldl (walkStep m1 cmap) s = ts.foldl (walkStep m2 cmap) s := by
  intro ts
  induction ts with
  | nil => intro s h; rfl
  | cons t ts ih =>
    intro s h
    simp only [List.foldl_cons]
    have hstep : walkStep m1 cmap s t = walkStep m2 cmap s t := by
      unfold walkStep
      cases hc : cmap t with
      | none => rfl
      | some g =>
        obtain ⟨hcarb, hins⟩ := h t (List.mem_cons_self _ _) (by rw [hc]; rfl)
        have hrow : emitRow m1 s t g = emitRow m2 s t g := by
          unfold emitRow
          rw [hcarb, hins]
        dsimp only
        rw [hrow]
    rw [hstep]
    exact ih _ (fun x hx hs => h x (List.mem_cons_of_mem _ hx) hs)

/-- The walk's emitted (slot, glucose) trace: one pair per visited slot
that has a CGM reading, in clock order. -/
theorem walk_rows_trace (meals : List MealRow) (cmap : ℕ → Option ℝ) :
    ∀ (ts : List ℕ) (s : WalkState),
      ((ts.foldl (walkStep meals cmap) s).rows).map (fun r => (r.t, r.glucose)) =
        s.rows.map (fun r => (r.t, r.glucose))
          ++ ts.filterMap (fun t => (cmap t).map (fun g => (t, g))) := by
  intro ts
  induction ts with
  | nil => intro s; simp
  | cons t ts ih =>
    intro s
    simp only [List.foldl_cons, List.filterMap_cons]
    cases hc : cmap t with
    | none =>
      have hstep : walkStep meals cmap s t = s := by
        unfold walkStep
        rw [hc]
      rw [hstep, ih s]
      rfl
    | some g =>
      have hstep : walkStep meals cmap s t =
          { iob := (emitRow meals s t g).iob, cob := (emitRow meals s t g).cob,
            prev_glucose := some g, rows := s.rows ++ [emitRow meals s t g] } := by
        unfold walkStep
        rw [hc]
      rw [hstep, ih]
      simp only [List.map_append, List.map_cons, List.map_nil]
      rw [List.append_assoc]
      rfl

end BgFinetune

namespace BgFinetune

/-- The dict lookup `cgm_map.get(k)` returns the bg value of the last
inserted reading of bucket `k` (inserts overwrite). -/
theorem cgmMap_lastBg (rows : List CgmRow) (k : ℕ) :
    cgmMap rows k =
      ((rows.filter (fun r => decide (bucket r.timestamp = k))).map
        (fun r => r.bg_value)).getLast? := by
  induction rows using List.reverseRecOn with
  | nil => rfl
  | append_singleton l x ih =>
    unfold cgmMap
    rw [List.foldl_concat]
    show (if k = bucket x.timestamp then some x.bg_value else cgmMap l k) = _
    rw [List.filter_append, List.map_append]
    by_cases hk : k = bucket x.timestamp
    · rw [if_pos hk]
      have hfx : List.filter (fun r => decide (bucket r.timestamp = k)) [x] = [x] := by
        rw [List.filter_cons, if_pos (decide_eq_true hk.symm)]
        rfl
      rw [hfx]
      simp only [List.map_cons, List.map_nil]
      rw [List.getLast?_concat]
    · rw [if_neg hk]
      have hfx : List.filter (fun r => decide (bucket r.timestamp = k)) [x] = [] := by
        rw [List.filter_cons, if_neg]
        · rfl
        · simp only [decide_eq_true_eq]
          exact fun hb => hk hb.symm
      rw [hfx]
      simp only [List.map_nil, List.append_nil]
      exact ih

/-- The slots of the emitted trace are the visited slots that carry a
reading. -/
theorem trace_fst (cmap : ℕ → Option ℝ) :
    ∀ ts : List ℕ,
      (ts.filterMap (fun t => (cmap t).map (fun g => (t, g)))).map Prod.fst =
        ts.filter (fun t => (cmap t).isSome) := by
  intro ts
  induction ts with
  | nil => rfl
  | cons t ts ih =>
    rw [List.filterMap_cons, List.filter_cons]
    cases hc : cmap t with
    | none => simpa using ih
    | some g =>
      simp only [Option.isSome_some, if_pos]
      simpa using ih

/-- The 5-minute clock visits pairwise distinct slots. -/
theorem gridTimes_nodup (a b : ℕ) : (gridTimes a b).Nodup := by
  unfold gridTimes
  refine List.Nodup.map ?_ (List.nodup_range _)
  intro i j hij
  dsimp only at hij
  omega

/-- A bucket with a `cgm_map` entry holds at least one reading. -/
theorem cgmMap_some_mem (rows : List CgmRow) (k : ℕ)
    (h : (cgmMap rows k).isSome = true) :
    k ∈ rows.map (fun r => bucket r.timestamp) := by
  rw [cgmMap_lastBg] at h
  by_contra hk
  have hnil : rows.filter (fun r => decide (bucket r.timestamp = k)) = [] := by
    rw [List.filter_eq_nil_iff]
    intro r hr
    simp only [decide_eq_true_eq]
    intro hb
    exact hk (List.mem_map.mpr ⟨r, hr, hb⟩)
  rw [hnil] at h
  simp at h

end BgFinetune

/-- C10: when several CGM readings fall in the same 5-minute bucket, the
grid holds exactly one row per bucket (slot timestamps are pairwise
distinct), its glucose is the last such reading's value in sorted order,
and the grid never has more rows than there are CGM readings. -/
theorem grid_bucket_dedup (cgm : List BgFinetune.CgmRow)
    (meals : List BgFinetune.MealRow) :
    ((BgFinetune.build_time_series cgm meals).map (fun r => r.t)).Nodup ∧
    (∀ row ∈ BgFinetune.build_time_series cgm meals,
      some row.glucose = BgFinetune.lastBgInBucket cgm row.t) ∧
    (BgFinetune.build_time_series cgm meals).length ≤ cgm.length := by
  have hlen : (BgFinetune.sortCgm cgm).length = cgm.length := by
    unfold BgFinetune.sortCgm
    exact List.length_mergeSort cgm
  cases hs : BgFinetune.sortCgm cgm with
  | nil =>
    have hempty : BgFinetune.build_time_series cgm meals = [] := by
      unfold BgFinetune.build_time_series
      rw [hs]
    rw [hempty]
    simp
  | cons first rest =>
    have hbuild : BgFinetune.build_time_series cgm meals =
        ((BgFinetune.gridTimes (BgFinetune.bucket first.timestamp)
            (((first :: rest).getLast (List.cons_ne_nil first rest)).timestamp)).foldl
          (BgFinetune.walkStep meals (BgFinetune.cgmMap (first :: rest)))
          { iob := 0, cob := 0, prev_glucose := none, rows := [] }).rows := by
      unfold BgFinetune.build_time_series
      rw [hs]
    set ts := BgFinetune.gridTimes (BgFinetune.bucket first.timestamp)
      (((first :: rest).getLast (List.cons_ne_nil first rest)).timestamp) with hts
    set cmap := BgFinetune.cgmMap (first :: rest) with hcmap
    have htr : (BgFinetune.build_time_series cgm meals).map (fun r => (r.t, r.glucose)) =
        ts.filterMap (fun t => (cmap t).map (fun g => (t, g))) := by
      rw [hbuild]
      have := BgFinetune.walk_rows_trace meals cmap ts
        { iob := 0, cob := 0, prev_glucose := none, rows := [] }
      simpa using this
    have hfst : (BgFinetune.build_time_series cgm meals).map (fun r => r.t) =
        ts.filter (fun t => (cmap t).isSome) := by
      have h1 : (BgFinetune.build_time_series cgm meals).map (fun r => r.t) =
          ((BgFinetune.build_time_series cgm meals).map
            (fun r => (r.t, r.glucose))).map Prod.fst := by
        rw [List.map_map]
        rfl
      rw [h1, htr, BgFinetune.trace_fst]
    refine ⟨?_, ?_, ?_⟩
    · rw [hfst]
      exact List.Nodup.filter _ (BgFinetune.gridTimes_nodup _ _)
    · intro row hrow
      have hpair : (row.t, row.glucose) ∈
          (BgFinetune.build_time_series cgm meals).map (fun r => (r.t, r.glucose)) :=
        List.mem_map_of_mem _ hrow
      rw [htr] at hpair
      obtain ⟨t, ht, heq⟩ := List.mem_filterMap.mp hpair
      cases hcm : cmap t with
      | none =>
        rw [hcm] at heq
        exact Option.noConfusion heq
      | some g =>
        rw [hcm] at heq
        have heq2 : ((t, g) : ℕ × ℝ) = (row.t, row.glucose) := Option.some.inj heq
        have hteq : t = row.t := congrArg Prod.fst heq2
        have hgeq : g = row.glucose := congrArg Prod.snd heq2
        rw [BgFinetune.lastBgInBucket, hs]
        rw [← hgeq, ← hteq]
        rw [← BgFinetune.cgmMap_lastBg]
        rw [← hcmap, hcm]
    · have h2 : (BgFinetune.build_time_series cgm meals).length =
          (ts.filter (fun t => (cmap t).isSome)).length := by
        rw [← hfst, List.length_map]
      rw [h2]
      set F := ts.filter (fun t => (cmap t).isSome) with hF
      have hFnd : F.Nodup := List.Nodup.filter _ (BgFinetune.gridTimes_nodup _ _)
      have hsub : ∀ k ∈ F, k ∈ (first :: rest).map (fun r => BgFinetune.bucket r.timestamp) := by
        intro k hk
        have hk2 := List.of_mem_filter hk
        exact BgFinetune.cgmMap_some_mem _ _ hk2
      have hcard : F.length ≤ ((first :: rest).map
          (fun r => BgFinetune.bucket r.timestamp)).length := by
        rw [← List.toFinset_card_of_nodup hFnd]
        calc F.toFinset.card
            ≤ ((first :: rest).map (fun r => BgFinetune.bucket r.timestamp)).toFinset.card := by
              apply Finset.card_le_card
              intro x hx
              rw [List.mem_toFinset] at hx
              rw [List.mem_toFinset]
              exact hsub x hx
          _ ≤ _ := List.toFinset_card_le _
      calc F.length ≤ ((first :: rest).map (fun r => BgFinetune.bucket r.timestamp)).length :=
            hcard
        _ = (first :: rest).length := List.length_map _ _
        _ = cgm.length := by rw [← hs]; exact hlen

namespace BgFinetune

/-- The decay recurrence between two consecutive emitted rows: one decay
step per emitted row, whatever the wall-clock gap between them. -/
def decayStepRel (r1 r2 : GridRow) : Prop :=
  r2.iob = r1.iob * IOB_DECAY + r2.insulin_now ∧
  r2.cob = r1.cob * COB_DECAY + r2.carbs_now

/-- The walk state agrees with the last emitted row (vacuous before the
first emission). -/
def lastMatch (s : WalkState) : Prop :=
  match s.rows.getLast? with
  | some r => r.iob = s.iob ∧ r.cob = s.cob
  | none => True

/-- One walk step preserves the decay chain and the state/last-row
agreement. -/
theorem step_chain (meals : List MealRow) (cmap : ℕ → Option ℝ)
    (s : WalkState) (t : ℕ) (hc : List.Chain' decayStepRel s.rows)
    (hl : lastMatch s) :
    List.Chain' decayStepRel (walkStep meals cmap s t).rows ∧
    lastMatch (walkStep meals cmap s t) := by
  unfold walkStep
  cases hcm : cmap t with
  | none => exact ⟨hc, hl⟩
  | some g =>
    dsimp only
    constructor
    · rw [List.chain'_append]
      refine ⟨hc, List.chain'_singleton _, ?_⟩
      intro x hx y hy
      simp only [List.head?_cons, Option.mem_def, Option.some.injEq] at hy
      subst hy
      rw [Option.mem_def] at hx
      unfold lastMatch at hl
      rw [hx] at hl
      constructor
      · show (emitRow meals s t g).iob
            = x.iob * IOB_DECAY + (emitRow meals s t g).insulin_now
        rw [hl.1]
        rfl
      · show (emitRow meals s t g).cob
            = x.cob * COB_DECAY + (emitRow meals s t g).carbs_now
        rw [hl.2]
        rfl
    · unfold lastMatch
      rw [List.getLast?_concat]
      exact ⟨rfl, rfl⟩

end BgFinetune

namespace BgFinetune

/-- The whole walk preserves the decay chain. -/
theorem fold_chain (meals : List MealRow) (cmap : ℕ → Option ℝ) :
    ∀ (ts : List ℕ) (s : WalkState), List.Chain' decayStepRel s.rows →
      lastMatch s →
      List.Chain' decayStepRel ((ts.foldl (walkStep meals cmap) s).rows) ∧
      lastMatch (ts.foldl (walkStep meals cmap) s) := by
  intro ts
  induction ts with
  | nil => intro s hc hl; exact ⟨hc, hl⟩
  | cons t ts ih =>
    intro s hc hl
    obtain ⟨hc2, hl2⟩ := step_chain meals cmap s t hc hl
    exact ih _ hc2 hl2

/-- The spec's version of the walk step, following the specification's
words (spec 4.1): on a slot with no CGM reading, "advance the decay
state (so IOB/COB keep decaying across gaps) but do not emit a
GridPoint", with bucketed meal events still consumed so that "they still
influence future IOB/COB once a later slot is emitted". Written only to
be compared against the source's `walkStep`. -/
noncomputable def walkStepSpec (meals : List MealRow) (cmap : ℕ → Option ℝ)
    (s : WalkState) (t : ℕ) : WalkState :=
  match cmap t with
  | none =>
    { iob := s.iob * IOB_DECAY + mealInsulinAt meals t,
      cob := s.cob * COB_DECAY + mealCarbsAt meals t,
      prev_glucose := s.prev_glucose, rows := s.rows }
  | some glucose =>
    let row := emitRow meals s t glucose
    { iob := row.iob, cob := row.cob, prev_glucose := some glucose,
      rows := s.rows ++ [row] }

/-- The spec's version of the grid builder, identical to
`build_time_series` except that gap slots advance the decay state and
consume their bucketed meals. -/
noncomputable def build_time_series_spec (cgm_rows : List CgmRow)
    (meal_rows : List MealRow) : List GridRow :=
  match sortCgm cgm_rows with
  | [] => []
  | first :: rest =>
    let t_start := bucket first.timestamp
    let t_end := ((first :: rest).getLast (List.cons_ne_nil first rest)).timestamp
    let cmap := cgmMap (first :: rest)
    ((gridTimes t_start t_end).foldl (walkStepSpec meal_rows cmap)
      { iob := 0, cob := 0, prev_glucose := none, rows := [] }).rows

end BgFinetune

/-- C2 (amended): in `_build_time_series` a slot with no CGM reading is
skipped without advancing the IOB/COB decay state, and meal/insulin
events bucketed into such a slot are dropped entirely: the grid equals
the grid built from only the meals whose bucket has a CGM reading, and
consecutive emitted rows always satisfy the one-step decay recurrence
`iob' = iob * IOB_DECAY + insulin_now` (one decay step per emitted row,
not per elapsed 5-minute slot). -/
theorem grid_gap_behavior (cgm : List BgFinetune.CgmRow)
    (meals : List BgFinetune.MealRow) :
    (BgFinetune.build_time_series cgm meals =
      BgFinetune.build_time_series cgm
        (meals.filter (fun m =>
          (BgFinetune.cgmMap (BgFinetune.sortCgm cgm)
            (BgFinetune.bucket m.created_at)).isSome))) ∧
    List.Chain' BgFinetune.decayStepRel (BgFinetune.build_time_series cgm meals) := by
  constructor
  · cases hs : BgFinetune.sortCgm cgm with
    | nil =>
      unfold BgFinetune.build_time_series
      rw [hs]
    | cons first rest =>
      unfold BgFinetune.build_time_series
      rw [hs]
      dsimp only
      have hcongr := BgFinetune.walk_congr (BgFinetune.cgmMap (first :: rest)) meals
        (meals.filter (fun m =>
          (BgFinetune.cgmMap (BgFinetune.sortCgm cgm)
            (BgFinetune.bucket m.created_at)).isSome))
        (BgFinetune.gridTimes (BgFinetune.bucket first.timestamp)
          (((first :: rest).getLast (List.cons_ne_nil first rest)).timestamp))
        { iob := 0, cob := 0, prev_glucose := none, rows := [] }
        (by
          intro t ht hsome
          constructor
          · refine (BgFinetune.mealCarbsAt_filter meals _ t ?_).symm
            intro m hm hb
            rw [hs, hb]
            exact hsome
          · refine (BgFinetune.mealInsulinAt_filter meals _ t ?_).symm
            intro m hm hb
            rw [hs, hb]
            exact hsome)
      rw [hcongr, hs]
  · cases hs : BgFinetune.sortCgm cgm with
    | nil =>
      unfold BgFinetune.build_time_series
      rw [hs]
      exact List.chain'_nil
    | cons first rest =>
      unfold BgFinetune.build_time_series
      rw [hs]
      dsimp only
      refine (BgFinetune.fold_chain meals _ _ _ List.chain'_nil ?_).1
      unfold BgFinetune.lastMatch
      exact trivial

/-- Two CGM readings with a 5-minute coverage gap between them. -/
noncomputable def cgmGapExample : List BgFinetune.CgmRow :=
  [{ timestamp := 0, bg_value := 100 }, { timestamp := 10, bg_value := 110 }]

/-- One meal event (20 g carbs, 3 U insulin) bucketed into the gap slot
at minute 5, which has no CGM reading. -/
noncomputable def mealGapExample : List BgFinetune.MealRow :=
  [{ created_at := 5, carbs := 20, insulin := 3 }]

/-- The gap example is already sorted by timestamp. -/
theorem cgmGapExample_sorted :
    BgFinetune.sortCgm cgmGapExample = cgmGapExample := by
  apply List.mergeSort_of_sorted
  unfold cgmGapExample
  refine List.Pairwise.cons ?_
    (List.Pairwise.cons (fun b hb => absurd hb (List.not_mem_nil b)) List.Pairwise.nil)
  intro b hb
  simp only [List.mem_singleton] at hb
  subst hb
  rfl

/-- The source grid builder on the gap example, as a plain fold. -/
theorem cgmGapExample_fold (meals : List BgFinetune.MealRow) :
    BgFinetune.build_time_series cgmGapExample meals =
      (([0, 5, 10] : List ℕ).foldl
        (BgFinetune.walkStep meals (BgFinetune.cgmMap cgmGapExample))
        { iob := 0, cob := 0, prev_glucose := none, rows := [] }).rows := by
  unfold BgFinetune.build_time_series
  rw [cgmGapExample_sorted]
  rfl

/-- The spec-version grid builder on the gap example, as a plain fold. -/
theorem cgmGapExample_fold_spec (meals : List BgFinetune.MealRow) :
    BgFinetune.build_time_series_spec cgmGapExample meals =
      (([0, 5, 10] : List ℕ).foldl
        (BgFinetune.walkStepSpec meals (BgFinetune.cgmMap cgmGapExample))
        { iob := 0, cob := 0, prev_glucose := none, rows := [] }).rows := by
  unfold BgFinetune.build_time_series_spec
  rw [cgmGapExample_sorted]
  rfl

/-- C2 counterexample: a meal bucketed into a gap slot has no influence
at all on the grid — the build equals the build with no meals, and the
IOB feature of the row after the gap is 0 — while the spec's description
of the walk (decay advancing through the gap and gap meals consumed)
yields a nonzero IOB there, so the code does not implement the claimed
gap behavior. -/
theorem grid_gap_counterexample :
    (BgFinetune.build_time_series cgmGapExample mealGapExample =
      BgFinetune.build_time_series cgmGapExample []) ∧
    (((BgFinetune.build_time_series cgmGapExample mealGapExample).getD 1
        BgFinetune.dummyRow).iob = 0) ∧
    (((BgFinetune.build_time_series_spec cgmGapExample mealGapExample).getD 1
        BgFinetune.dummyRow).iob ≠ 0) := by
  have hm5 : BgFinetune.cgmMap cgmGapExample 5 = none := rfl
  have heq : BgFinetune.build_time_series cgmGapExample mealGapExample =
      BgFinetune.build_time_series cgmGapExample [] := by
    rw [cgmGapExample_fold mealGapExample, cgmGapExample_fold []]
    refine congrArg BgFinetune.WalkState.rows
      (BgFinetune.walk_congr (BgFinetune.cgmMap cgmGapExample) mealGapExample []
        [0, 5, 10] _ ?_)
    intro t ht hsome
    fin_cases ht
    · exact ⟨rfl, rfl⟩
    · rw [hm5] at hsome
      exact Bool.noConfusion hsome
    · exact ⟨rfl, rfl⟩
  have hval : ((BgFinetune.build_time_series cgmGapExample []).getD 1
      BgFinetune.dummyRow).iob
      = ((0:ℝ) * BgFinetune.IOB_DECAY + 0) * BgFinetune.IOB_DECAY + 0 := by
    rw [cgmGapExample_fold []]
    rfl
  have hvalspec : ((BgFinetune.build_time_series_spec cgmGapExample
      mealGapExample).getD 1 BgFinetune.dummyRow).iob
      = (((0:ℝ) * BgFinetune.IOB_DECAY + 0) * BgFinetune.IOB_DECAY + (0 + 3))
          * BgFinetune.IOB_DECAY + 0 := by
    rw [cgmGapExample_fold_spec mealGapExample]
    rfl
  refine ⟨heq, ?_, ?_⟩
  · rw [heq, hval]
    ring
  · rw [hvalspec]
    have hD : (0:ℝ) < BgFinetune.IOB_DECAY := by
      unfold BgFinetune.IOB_DECAY
      positivity
    have h3 : (((0:ℝ) * BgFinetune.IOB_DECAY + 0) * BgFinetune.IOB_DECAY + (0 + 3))
        * BgFinetune.IOB_DECAY + 0 = 3 * BgFinetune.IOB_DECAY := by
      ring
    rw [h3]
    exact ne_of_gt (by nlinarith)

/-- Witness for C2's amended theorem on the gap example. -/
theorem grid_gap_behavior_witness :
    (BgFinetune.build_time_series cgmGapExample mealGapExample =
      BgFinetune.build_time_series cgmGapExample
        (mealGapExample.filter (fun m =>
          (BgFinetune.cgmMap (BgFinetune.sortCgm cgmGapExample)
            (BgFinetune.bucket m.created_at)).isSome))) ∧
    List.Chain' BgFinetune.decayStepRel
      (BgFinetune.build_time_series cgmGapExample mealGapExample) :=
  grid_gap_behavior cgmGapExample mealGapExample

/-- Three readings, two of which share the 5-minute bucket at minute 0. -/
noncomputable def cgmDupExample : List BgFinetune.CgmRow :=
  [{ timestamp := 0, bg_value := 100 }, { timestamp := 2, bg_value := 105 },
   { timestamp := 10, bg_value := 120 }]

/-- Witness for C10 on a bucket holding two readings. -/
theorem grid_bucket_dedup_witness :
    ((BgFinetune.build_time_series cgmDupExample []).map (fun r => r.t)).Nodup ∧
    (∀ row ∈ BgFinetune.build_time_series cgmDupExample [],
      some row.glucose = BgFinetune.lastBgInBucket cgmDupExample row.t) ∧
    (BgFinetune.build_time_series cgmDupExample []).length ≤ cgmDupExample.length :=
  grid_bucket_dedup cgmDupExample []

namespace BgFinetune

/-- `input_len` from the model metadata (12). -/
def INPUT_LEN : ℕ := 12

/-- `horizons` from the model metadata ([6, 12, 18] grid steps). -/
def HORIZONS : List ℕ := [6, 12, 18]

/-- `max(HORIZONS)` as computed in `_create_sequences`. -/
def maxHorizon : ℕ := HORIZONS.foldl max 0

/-- `MIN_READINGS = 288` (24 hours at 5-minute cadence). -/
def MIN_READINGS : ℕ := 288

/-- The input windows of `_create_sequences` (bg_finetune.py lines
108-126): for each valid offset, 12 consecutive rows.  Python's
`range(len(data) - INPUT_LEN - max_horizon + 1)` is empty for negative
arguments, which ℕ-truncated `len + 1 - (INPUT_LEN + max_horizon)`
reproduces. -/
def create_sequences_X {α : Type} (data : List α) : List (List α) :=
  (List.range (data.length + 1 - (INPUT_LEN + maxHorizon))).map
    (fun i => (data.drop i).take INPUT_LEN)

/-- The target rows of `_create_sequences`: for each valid offset, the
glucose column (extracted by `g`) at each horizon step ahead
(`data[i + INPUT_LEN + h - 1, 0]`). -/
def create_sequences_Y {α : Type} (g : α → ℝ) (dflt : α) (data : List α) :
    List (List ℝ) :=
  (List.range (data.length + 1 - (INPUT_LEN + maxHorizon))).map
    (fun i => HORIZONS.map (fun h => g (data.getD (i + INPUT_LEN + h - 1) dflt)))

/-- The abstract outcome of `model.fit` (last-epoch history values). -/
structure TrainStats where
  loss : ℝ
  mae : ℝ
  val_loss : ℝ
  val_mae : ℝ
  epochs : ℕ

/-- The metrics block of a successful fine-tune
(bg_finetune.py lines 229-245). -/
structure FtMetrics where
  loss : ℝ
  mae : ℝ
  val_loss : ℝ
  val_mae : ℝ
  epochs : ℕ
  sequences : ℕ

/-- The result dict of `finetune_for_user`. -/
structure FtResult where
  success : Bool
  message : String
  metrics : Option FtMetrics

/-- The externally visible side effects of a `finetune_for_user` call:
whether the base model was loaded, whether training ran, and the saved
per-user model file, if any. -/
structure FtEffects where
  modelLoaded : Bool
  trained : Bool
  savedModel : Option String

/-- No side effects. -/
def noFtEffects : FtEffects :=
  { modelLoaded := false, trained := false, savedModel := none }

/-- `finetune_for_user(user_id)` (bg_finetune.py lines 129-246) with the
database rows passed in and the scaler and Keras training abstracted as
function parameters.  The `RuntimeError` for a missing base model is
`Except.error`; every data-sufficiency failure is a non-raising `.ok`
with `success := false` and empty effects. -/
noncomputable def finetune_for_user (baseModelExists : Bool) (user_id : String)
    (cgm_rows : List CgmRow) (meal_rows : List MealRow)
    (scale : GridRow → List ℝ)
    (fit : List (List (List ℝ)) → List (List ℝ) → TrainStats) :
    Except String (FtResult × FtEffects) :=
  if !baseModelExists then
    .error "Base model not found — cannot fine-tune."
  else if cgm_rows.length < MIN_READINGS then
    .ok ({ success := false,
           message := "Not enough data: " ++ toString cgm_rows.length
             ++ " readings (need at least " ++ toString MIN_READINGS
             ++ " = 24 h). Keep logging and try again later.",
           metrics := none }, noFtEffects)
  else
    let ts_data := build_time_series cgm_rows meal_rows
    if ts_data.length < INPUT_LEN + maxHorizon then
      .ok ({ success := false,
             message := "Not enough aligned data points after grid alignment.",
             metrics := none }, noFtEffects)
    else
      let X := create_sequences_X (ts_data.map scale)
      if X.length = 0 then
        .ok ({ success := false,
               message := "Could not create any training sequences.",
               metrics := none }, noFtEffects)
      else
        let Y_raw := create_sequences_Y (fun r => r.glucose) dummyRow ts_data
        let st := fit X Y_raw
        let m : FtMetrics :=
          { loss := pyRoundToR st.loss 4
            mae := pyRoundToR st.mae 2
            val_loss := pyRoundToR st.val_loss 4
            val_mae := pyRoundToR st.val_mae 2
            epochs := st.epochs
            sequences := X.length }
        .ok ({ success := true,
               message := "Fine-tuning complete for user " ++ user_id ++ ".",
               metrics := some m },
             { modelLoaded := true, trained := true,
               savedModel := some ("bg_forecast_user_" ++ user_id ++ ".keras") })

end BgFinetune

/-- C3: with the base model present, `finetune_for_user` on fewer than
288 CGM readings does not raise: it returns `success := false` with the
human-readable insufficient-history message, and performs no model work
at all — no model load, no training, no saved per-user model. -/
theorem finetune_insufficient_history (user_id : String)
    (cgm_rows : List BgFinetune.CgmRow) (meal_rows : List BgFinetune.MealRow)
    (scale : BgFinetune.GridRow → List ℝ)
    (fit : List (List (List ℝ)) → List (List ℝ) → BgFinetune.TrainStats)
    (h : cgm_rows.length < 288) :
    BgFinetune.finetune_for_user true user_id cgm_rows meal_rows scale fit =
      .ok ({ success := false,
             message := "Not enough data: " ++ toString cgm_rows.length
               ++ " readings (need at least " ++ toString (288:ℕ)
               ++ " = 24 h). Keep logging and try again later.",
             metrics := none },
           { modelLoaded := false, trained := false, savedModel := none }) := by
  unfold BgFinetune.finetune_for_user
  rw [if_neg (by simp)]
  rw [if_pos (show cgm_rows.length < BgFinetune.MIN_READINGS from h)]
  rfl

/-- Witness for C3 with an empty CGM history. -/
theorem finetune_insufficient_history_witness :
    BgFinetune.finetune_for_user true "u1" [] [] (fun _ => [])
        (fun _ _ => { loss := 0, mae := 0, val_loss := 0, val_mae := 0, epochs := 0 }) =
      .ok ({ success := false,
             message := "Not enough data: " ++ toString ([] : List BgFinetune.CgmRow).length
               ++ " readings (need at least " ++ toString (288:ℕ)
               ++ " = 24 h). Keep logging and try again later.",
             metrics := none },
           { modelLoaded := false, trained := false, savedModel := none }) :=
  finetune_insufficient_history "u1" [] [] (fun _ => [])
    (fun _ _ => { loss := 0, mae := 0, val_loss := 0, val_mae := 0, epochs := 0 })
    (by norm_num)

/-- C6: the sequence builder produces exactly `max 0 (N - 12 - 18 + 1)`
windows from `N` aligned rows; window `i` is rows `i..i+11` and its
target vector holds the glucose values 6, 12 and 18 grid steps after the
window's last row (row `i+11`), taken from the raw unscaled series; and
whenever zero windows can be built from the aligned grid, the fine-tune
pipeline (with the base model present) returns a non-success result. -/
theorem create_sequences_spec :
    (∀ (data : List (List ℝ)),
      ((BgFinetune.create_sequences_X data).length : ℤ) =
        max 0 ((data.length : ℤ) - 12 - 18 + 1)) ∧
    (∀ (g : BgFinetune.GridRow → ℝ) (data : List BgFinetune.GridRow) (i : ℕ),
      i < (BgFinetune.create_sequences_X data).length →
      ((BgFinetune.create_sequences_X data).getD i [] = (data.drop i).take 12 ∧
       (BgFinetune.create_sequences_Y g BgFinetune.dummyRow data).getD i [] =
         [g (data.getD (i + 11 + 6) BgFinetune.dummyRow),
          g (data.getD (i + 11 + 12) BgFinetune.dummyRow),
          g (data.getD (i + 11 + 18) BgFinetune.dummyRow)])) ∧
    (∀ (user_id : String) (cgm_rows : List BgFinetune.CgmRow)
       (meal_rows : List BgFinetune.MealRow)
       (scale : BgFinetune.GridRow → List ℝ)
       (fit : List (List (List ℝ)) → List (List ℝ) → BgFinetune.TrainStats),
      BgFinetune.create_sequences_X
          ((BgFinetune.build_time_series cgm_rows meal_rows).map scale) = [] →
      ∃ r e, BgFinetune.finetune_for_user true user_id cgm_rows meal_rows scale fit =
          .ok (r, e) ∧ r.success = false ∧ e = BgFinetune.noFtEffects) := by
  have hcount : ∀ {α : Type} (data : List α),
      (BgFinetune.create_sequences_X data).length
        = data.length + 1 - 30 := by
    intro α data
    unfold BgFinetune.create_sequences_X
    rw [List.length_map, List.length_range]
    rfl
  refine ⟨?_, ?_, ?_⟩
  · intro data
    rw [hcount data]
    omega
  · intro g data i hi
    rw [hcount data] at hi
    have hi30 : i < data.length + 1 - 30 := hi
    constructor
    · unfold BgFinetune.create_sequences_X
      rw [List.getD_eq_getElem?_getD, List.getElem?_map,
        List.getElem?_range (by
          rw [show BgFinetune.INPUT_LEN + BgFinetune.maxHorizon = 30 from rfl]
          exact hi30)]
      rfl
    · unfold BgFinetune.create_sequences_Y
      rw [List.getD_eq_getElem?_getD, List.getElem?_map,
        List.getElem?_range (by
          rw [show BgFinetune.INPUT_LEN + BgFinetune.maxHorizon = 30 from rfl]
          exact hi30)]
      show BgFinetune.HORIZONS.map
          (fun h => g (data.getD (i + BgFinetune.INPUT_LEN + h - 1)
            BgFinetune.dummyRow)) = _
      unfold BgFinetune.HORIZONS
      simp only [List.map_cons, List.map_nil]
      rw [show i + BgFinetune.INPUT_LEN + 6 - 1 = i + 11 + 6 from by
          rw [show BgFinetune.INPUT_LEN = 12 from rfl]; omega,
        show i + BgFinetune.INPUT_LEN + 12 - 1 = i + 11 + 12 from by
          rw [show BgFinetune.INPUT_LEN = 12 from rfl]; omega,
        show i + BgFinetune.INPUT_LEN + 18 - 1 = i + 11 + 18 from by
          rw [show BgFinetune.INPUT_LEN = 12 from rfl]; omega]
  · intro user_id cgm_rows meal_rows scale fit hX
    have hlen : (BgFinetune.build_time_series cgm_rows meal_rows).length + 1 - 30 = 0 := by
      have := hcount ((BgFinetune.build_time_series cgm_rows meal_rows).map scale)
      rw [hX] at this
      simp only [List.length_nil] at this
      rw [List.length_map] at this
      omega
    by_cases hmin : cgm_rows.length < BgFinetune.MIN_READINGS
    · have hres : BgFinetune.finetune_for_user true user_id cgm_rows meal_rows scale fit =
          .ok ({ success := false,
                 message := "Not enough data: " ++ toString cgm_rows.length
                   ++ " readings (need at least " ++ toString (288:ℕ)
                   ++ " = 24 h). Keep logging and try again later.",
                 metrics := none }, BgFinetune.noFtEffects) := by
        unfold BgFinetune.finetune_for_user
        rw [if_neg (by simp), if_pos hmin]
        rfl
      exact ⟨_, _, hres, rfl, rfl⟩
    · have hres : BgFinetune.finetune_for_user true user_id cgm_rows meal_rows scale fit =
          .ok ({ success := false,
                 message := "Not enough aligned data points after grid alignment.",
                 metrics := none }, BgFinetune.noFtEffects) := by
        unfold BgFinetune.finetune_for_user
        rw [if_neg (by simp), if_neg hmin]
        rw [if_pos (by
          rw [show BgFinetune.INPUT_LEN + BgFinetune.maxHorizon = 30 from rfl]
          omega)]
      exact ⟨_, _, hres, rfl, rfl⟩

/-- Witness for C6: 31 aligned rows give exactly 2 windows, window 0 is
rows 0..11, and an empty history yields zero windows and a non-success
fine-tune result. -/
theorem create_sequences_spec_witness :
    (((BgFinetune.create_sequences_X (List.replicate 31 ([] : List ℝ))).length : ℤ) =
      max 0 (((List.replicate 31 ([] : List ℝ)).length : ℤ) - 12 - 18 + 1)) ∧
    ((BgFinetune.create_sequences_X (List.replicate 31 BgFinetune.dummyRow)).getD 0 [] =
      ((List.replicate 31 BgFinetune.dummyRow).drop 0).take 12) ∧
    (∃ r e, BgFinetune.finetune_for_user true "u1" [] [] (fun _ => [])
        (fun _ _ => { loss := 0, mae := 0, val_loss := 0, val_mae := 0, epochs := 0 }) =
        .ok (r, e) ∧ r.success = false ∧ e = BgFinetune.noFtEffects) :=
  ⟨create_sequences_spec.1 (List.replicate 31 []),
   (create_sequences_spec.2.1 (fun r => r.glucose) (List.replicate 31 BgFinetune.dummyRow) 0
     (by
       unfold BgFinetune.create_sequences_X
       rw [List.length_map, List.length_range, List.length_replicate]
       decide)).1,
   create_sequences_spec.2.2 "u1" [] [] (fun _ => [])
     (fun _ _ => { loss := 0, mae := 0, val_loss := 0, val_mae := 0, epochs := 0 })
     (by
       have hb : BgFinetune.build_time_series [] [] = [] := by
         unfold BgFinetune.build_time_series BgFinetune.sortCgm
         rw [List.mergeSort_nil]
       rw [hb]
       rfl)⟩
